import Mathlib

/-!
Shallow embedding of the QAM training program (`src/code/main.py`).

The program trains a parameterized 3x3 unitary "encoder" so that a qutrit
state, projected to its 2-level effective subspace, cloned by a fixed
Buzek-Hillery machine, re-embedded and decoded, reproduces the input with
high fidelity while leaking little population into component 0.

`main.py` is the only file under src/.  The five helper modules it imports
(`encoder`, `cloning`, `loss`, `decoder`, `embed`) are not part of the
sources, so those five functions are modelled from the specification; every
such definition carries a doc comment starting with `Modelled from the
spec:`.  Everything else is translated directly from `main.py`.

Real scalars are modelled by `ℝ`, complex amplitudes by `ℂ`; fallible
control flow (the per-epoch division by the batch count, which raises
`ZeroDivisionError` in Python when an epoch sees no batches) is modelled
with `Option`.
-/

noncomputable section

namespace QAM

/-- A qutrit state: a 3-dimensional complex vector. -/
abbrev Qutrit := Fin 3 → ℂ

/-- A 2-dimensional effective (qubit-subspace) state. -/
abbrev EffectiveState := Fin 2 → ℂ

/-- 2x2 complex matrices (single-clone density matrices). -/
abbrev Mat2 := Matrix (Fin 2) (Fin 2) ℂ

/-- 3x3 complex matrices (qutrit-space density matrices and unitaries). -/
abbrev Mat3 := Matrix (Fin 3) (Fin 3) ℂ

/-- 4x4 complex matrices, indexed by pairs (two-clone joint states). -/
abbrev Mat4 := Matrix (Fin 2 × Fin 2) (Fin 2 × Fin 2) ℂ

/-- The weights dictionary of `main.py`: a finite association list from
string keys to real scalars (Python `{str(i): float}`). -/
abbrev EncoderParameters := List (String × ℝ)

/-- Value stored in the weights dictionary at key `k` (0 when absent). -/
def getParam (w : EncoderParameters) (k : String) : ℝ :=
  (List.lookup k w).getD 0

/-- Modelled from the spec: module `encoder` is not under src/.  One factor
of the unitary parameterization of section 4.1: a diagonal phase factor
diag(exp(i a), exp(i b), exp(i c)). -/
def phaseDiag (a b c : ℝ) : Mat3 :=
  Matrix.diagonal ![Complex.exp (a * Complex.I), Complex.exp (b * Complex.I),
    Complex.exp (c * Complex.I)]

/-- Modelled from the spec: Givens-type rotation in the (0,1) plane. -/
def givens12 (t : ℝ) : Mat3 :=
  !![(Real.cos t : ℂ), -(Real.sin t : ℂ), 0;
     (Real.sin t : ℂ), (Real.cos t : ℂ), 0;
     0, 0, 1]

/-- Modelled from the spec: Givens-type rotation in the (0,2) plane. -/
def givens13 (t : ℝ) : Mat3 :=
  !![(Real.cos t : ℂ), 0, -(Real.sin t : ℂ);
     0, 1, 0;
     (Real.sin t : ℂ), 0, (Real.cos t : ℂ)]

/-- Modelled from the spec: Givens-type rotation in the (1,2) plane. -/
def givens23 (t : ℝ) : Mat3 :=
  !![1, 0, 0;
     0, (Real.cos t : ℂ), -(Real.sin t : ℂ);
     0, (Real.sin t : ℂ), (Real.cos t : ℂ)]

/-- Modelled from the spec: the encoder unitary of section 4.1, a product of
elementary rotation/phase generators parameterized by the 8 labeled real
weights, unitary by construction for every real value and equal to the
identity at the all-zero parameter vector (section 8). -/
def encoder_unitary_of (w : EncoderParameters) : Mat3 :=
  phaseDiag (getParam w "1") (getParam w "2") (getParam w "3") *
    givens12 (getParam w "4") * givens13 (getParam w "5") *
    givens23 (getParam w "6") *
    phaseDiag (getParam w "7") (getParam w "8") 0

/-- Modelled from the spec: `encode_qutrit` from module `encoder` — applies
the encoder unitary to a qutrit state, returning the encoded state together
with the unitary (section 4.1: EncodedState = U · state). -/
def encode_qutrit (state : Qutrit) (weights : EncoderParameters) :
    Qutrit × Mat3 :=
  ((encoder_unitary_of weights).mulVec state, encoder_unitary_of weights)

/-- Rank-one outer product |v⟩⟨v| on the effective 2-level space. -/
def outer (v : EffectiveState) : Mat2 :=
  Matrix.vecMulVec v (star v)

/-- The state orthogonal to `v` in the 2-level space. -/
def psiPerp (v : EffectiveState) : EffectiveState :=
  ![-(starRingEnd ℂ) (v 1), (starRingEnd ℂ) (v 0)]

/-- Tensor product of two 2-level vectors, indexed by pairs. -/
def tprod (v w : EffectiveState) : Fin 2 × Fin 2 → ℂ :=
  fun p => v p.1 * w p.2

/-- Modelled from the spec: joint two-clone output of the symmetric 1→2
Buzek-Hillery universal cloner,
(2/3)|ψψ⟩⟨ψψ| + (1/6)(|ψψ⊥⟩+|ψ⊥ψ⟩)(⟨ψψ⊥|+⟨ψ⊥ψ|). -/
def bhJoint (v : EffectiveState) : Mat4 :=
  ((2 : ℂ)/3) • Matrix.vecMulVec (tprod v v) (star (tprod v v)) +
    ((1 : ℂ)/6) • Matrix.vecMulVec (tprod v (psiPerp v) + tprod (psiPerp v) v)
      (star (tprod v (psiPerp v) + tprod (psiPerp v) v))

/-- Modelled from the spec: the identical single-clone reduction of the
Buzek-Hillery output, (2/3)|ψ⟩⟨ψ| + (1/6)·I (5/6 self-fidelity fixed point
on unit input, section 8). -/
def bhReduced (v : EffectiveState) : Mat2 :=
  ((2 : ℂ)/3) • outer v + ((1 : ℂ)/6) • 1

/-- Modelled from the spec: `buzek_hillery_clone` from module `cloning` —
the fixed, non-trainable approximate universal cloning transformation of
section 4.3, returning the joint density matrix and the two (identical by
symmetry) single-clone reductions. -/
def buzek_hillery_clone (psi : EffectiveState) : Mat4 × Mat2 × Mat2 :=
  (bhJoint psi, bhReduced psi, bhReduced psi)

/-- Modelled from the spec: `fidelity` from module `loss` — the real part
of ⟨ψ|ρ|ψ⟩ (section 4.6). -/
def fidelity (psi : Qutrit) (rho : Mat3) : ℝ :=
  (Matrix.dotProduct (star psi) (rho.mulVec psi)).re

/-- Modelled from the spec: `embed` from module `embed` — places a 2x2
density matrix into the bottom-right block of a 3x3 matrix, the row and
column at index 0 (leakage component) being zero (section 4.4). -/
def embed (rho2 : Mat2) : Mat3 :=
  !![0, 0, 0;
     0, rho2 0 0, rho2 0 1;
     0, rho2 1 0, rho2 1 1]

/-- Modelled from the spec: `decode_qubit_to_qutrit` from module `decoder`
— applies the inverse (conjugate-transpose) unitary conjugation
U† · ρ · U (section 4.5). -/
def decode_qubit_to_qutrit (rho3 : Mat3) (U : Mat3) : Mat3 :=
  U.conjTranspose * rho3 * U

/-- `encoded_state[1:3]`: components 1 and 2 of the encoded state
(main.py line 54). -/
def effective_part (encoded : Qutrit) : EffectiveState :=
  fun i => encoded i.succ

/-- `jnp.linalg.norm` of a complex 2-vector: the Euclidean norm
sqrt(|v₀|² + |v₁|²) (main.py line 55). -/
def norm2 (v : EffectiveState) : ℝ :=
  Real.sqrt (Complex.abs (v 0) ^ 2 + Complex.abs (v 1) ^ 2)

/-- The effective 2-level state handed to the cloner: main.py lines 54-59.
`jax.lax.cond(norm_eff > 0, λ_: effective_part / norm_eff,
λ_: effective_part)`. -/
def project (encoded : Qutrit) : EffectiveState :=
  if 0 < norm2 (effective_part encoded) then
    fun i => effective_part encoded i / (norm2 (effective_part encoded) : ℂ)
  else effective_part encoded

/-- `occupation_loss = jnp.abs(encoded_state[0])**2` (main.py line 51). -/
def occupation_loss (weights : EncoderParameters) (qutrit_state : Qutrit) : ℝ :=
  Complex.abs ((encode_qutrit qutrit_state weights).1 0) ^ 2

/-- `effective_psi` of main.py lines 54-59 for a given weights/state pair. -/
def effectivePsi (weights : EncoderParameters) (qutrit_state : Qutrit) :
    EffectiveState :=
  project (encode_qutrit qutrit_state weights).1

/-- `rho_A` of main.py line 62. -/
def rhoA (weights : EncoderParameters) (qutrit_state : Qutrit) : Mat2 :=
  (buzek_hillery_clone (effectivePsi weights qutrit_state)).2.1

/-- `rho_B` of main.py line 62. -/
def rhoB (weights : EncoderParameters) (qutrit_state : Qutrit) : Mat2 :=
  (buzek_hillery_clone (effectivePsi weights qutrit_state)).2.2

/-- `decoded_rho_A` of main.py lines 63-65. -/
def decodedRhoA (weights : EncoderParameters) (qutrit_state : Qutrit) : Mat3 :=
  decode_qubit_to_qutrit (embed (rhoA weights qutrit_state))
    (encode_qutrit qutrit_state weights).2

/-- `decoded_rho_B` of main.py lines 64-66. -/
def decodedRhoB (weights : EncoderParameters) (qutrit_state : Qutrit) : Mat3 :=
  decode_qubit_to_qutrit (embed (rhoB weights qutrit_state))
    (encode_qutrit qutrit_state weights).2

/-- `F_A = fidelity(qutrit_state, decoded_rho_A)` (main.py line 69). -/
def fidelityA (weights : EncoderParameters) (qutrit_state : Qutrit) : ℝ :=
  fidelity qutrit_state (decodedRhoA weights qutrit_state)

/-- `F_B = fidelity(qutrit_state, decoded_rho_B)` (main.py line 70). -/
def fidelityB (weights : EncoderParameters) (qutrit_state : Qutrit) : ℝ :=
  fidelity qutrit_state (decodedRhoB weights qutrit_state)

/-- `cloning_loss = 1 - F_A - F_B + (F_A - F_B)**2` (main.py line 71). -/
def cloningLoss (weights : EncoderParameters) (qutrit_state : Qutrit) : ℝ :=
  1 - fidelityA weights qutrit_state - fidelityB weights qutrit_state +
    (fidelityA weights qutrit_state - fidelityB weights qutrit_state) ^ 2

/-- `total_loss` selector of main.py lines 74-77:
`jax.lax.cond(jnp.abs(beta - 1.0) < 1e-6, λ_: occupation_loss,
λ_: cloning_loss + beta * occupation_loss)`. -/
def totalLoss (weights : EncoderParameters) (qutrit_state : Qutrit)
    (beta : ℝ) : ℝ :=
  if |beta - 1.0| < 1e-6 then occupation_loss weights qutrit_state
  else cloningLoss weights qutrit_state + beta * occupation_loss weights qutrit_state

/-- The four scalars returned by `compute_loss`
(total_loss, cloning_loss, F_A, F_B). -/
structure LossRecord where
  total_loss : ℝ
  cloning_loss : ℝ
  F_A : ℝ
  F_B : ℝ

/-- `compute_loss(weights, qutrit_state, beta)` of main.py lines 39-79. -/
def compute_loss (weights : EncoderParameters) (qutrit_state : Qutrit)
    (beta : ℝ) : LossRecord :=
  ⟨totalLoss weights qutrit_state beta, cloningLoss weights qutrit_state,
    fidelityA weights qutrit_state, fidelityB weights qutrit_state⟩

/-- Arithmetic mean of a list of reals (`jnp.mean`). -/
def mean (xs : List ℝ) : ℝ :=
  xs.sum / xs.length

/-- `compute_loss_batch(weights, batch, beta)` of main.py lines 81-89:
vectorizes `compute_loss` over the batch and averages each of the four
outputs. -/
def compute_loss_batch (weights : EncoderParameters) (batch : List Qutrit)
    (beta : ℝ) : ℝ × ℝ × ℝ × ℝ :=
  let losses := batch.map fun state => compute_loss weights state beta
  (mean (losses.map LossRecord.total_loss),
    mean (losses.map LossRecord.cloning_loss),
    mean (losses.map LossRecord.F_A),
    mean (losses.map LossRecord.F_B))

/-- `total_loss_for_grad` of main.py lines 91-93. -/
def total_loss_for_grad (weights : EncoderParameters) (batch : List Qutrit)
    (beta : ℝ) : ℝ :=
  (compute_loss_batch weights batch beta).1

/-- The weights dictionary with the entry at key `k` replaced by `x`. -/
def setParam (w : EncoderParameters) (k : String) (x : ℝ) :
    EncoderParameters :=
  w.map fun p => if p.1 = k then (p.1, x) else p

/-- `grads[k]`: the partial derivative of the batch-mean total loss with
respect to the parameter at key `k` (`jax.grad(total_loss_for_grad,
argnums=0)`, main.py line 103). -/
def gradAt (w : EncoderParameters) (batch : List Qutrit) (beta : ℝ)
    (k : String) : ℝ :=
  deriv (fun x => total_loss_for_grad (setParam w k x) batch beta)
    (getParam w k)

/-- `update_step(weights, batch, beta)` of main.py lines 106-108:
`jax.tree_map(λ w g: w - learning_rate * g, weights, grads)`. -/
def update_step (learning_rate : ℝ) (weights : EncoderParameters)
    (batch : List Qutrit) (beta : ℝ) : EncoderParameters :=
  weights.map fun p => (p.1, p.2 - learning_rate * gradAt weights batch beta p.1)

/-- The per-epoch accumulator of main.py lines 112-116: the current weights
together with the running metric sums and the batch counter. -/
structure EpochAcc where
  weights : EncoderParameters
  epoch_loss : ℝ
  epoch_cloning_loss : ℝ
  total_FA : ℝ
  total_FB : ℝ
  num_batches : ℕ

/-- One iteration of the inner batch loop of main.py lines 117-128: the four
metrics are computed with the pre-update weights, the counters advance, and
only then are the weights advanced by `update_step`. -/
def processBatch (learning_rate beta : ℝ) (acc : EpochAcc)
    (batch : List Qutrit) : EpochAcc :=
  let r := compute_loss_batch acc.weights batch beta
  { weights := update_step learning_rate acc.weights batch beta
    epoch_loss := acc.epoch_loss + r.1
    epoch_cloning_loss := acc.epoch_cloning_loss + r.2.1
    total_FA := acc.total_FA + r.2.2.1
    total_FB := acc.total_FB + r.2.2.2
    num_batches := acc.num_batches + 1 }

/-- The whole inner batch loop of one epoch, starting from weights `w` and
zeroed accumulators. -/
def runEpoch (learning_rate beta : ℝ) (w : EncoderParameters)
    (dataloader : List (List Qutrit)) : EpochAcc :=
  dataloader.foldl (processBatch learning_rate beta) ⟨w, 0, 0, 0, 0, 0⟩

/-- The epoch loop of main.py lines 111-137, carrying the four history
lists.  Python raises `ZeroDivisionError` at `epoch_loss / num_batches`
when an epoch saw no batches; this is modelled by returning `none`. -/
def trainGo (learning_rate beta : ℝ) (dataloader : List (List Qutrit)) :
    ℕ → EncoderParameters → List ℝ → List ℝ → List ℝ → List ℝ →
    Option (EncoderParameters × List ℝ × List ℝ × List ℝ × List ℝ)
  | 0, w, h1, h2, h3, h4 => some (w, h1, h2, h3, h4)
  | n + 1, w, h1, h2, h3, h4 =>
    if (runEpoch learning_rate beta w dataloader).num_batches = 0 then none
    else
      trainGo learning_rate beta dataloader n
        (runEpoch learning_rate beta w dataloader).weights
        (h1 ++ [(runEpoch learning_rate beta w dataloader).epoch_loss /
          ((runEpoch learning_rate beta w dataloader).num_batches : ℝ)])
        (h2 ++ [(runEpoch learning_rate beta w dataloader).epoch_cloning_loss /
          ((runEpoch learning_rate beta w dataloader).num_batches : ℝ)])
        (h3 ++ [(runEpoch learning_rate beta w dataloader).total_FA /
          ((runEpoch learning_rate beta w dataloader).num_batches : ℝ)])
        (h4 ++ [(runEpoch learning_rate beta w dataloader).total_FB /
          ((runEpoch learning_rate beta w dataloader).num_batches : ℝ)])

/-- `weights = {str(i): float(np.random.randn()) for i in range(1, 9)}`
(main.py line 97); `r` supplies the eight random draws. -/
def initWeights (r : Fin 8 → ℝ) : EncoderParameters :=
  (List.finRange 8).map fun i => (toString (i.1 + 1), r i)

/-- `train(dataloader, num_epochs, learning_rate, beta)` of main.py lines
95-143, returning the final weights and the four per-epoch histories. -/
def train (r : Fin 8 → ℝ) (dataloader : List (List Qutrit))
    (num_epochs : ℕ) (learning_rate beta : ℝ) :
    Option (EncoderParameters × List ℝ × List ℝ × List ℝ × List ℝ) :=
  trainGo learning_rate beta dataloader num_epochs (initWeights r) [] [] [] []

/-- The weights as they stand after `n` epochs of training from `w`. -/
def weightsAfterEpochs (learning_rate beta : ℝ)
    (dataloader : List (List Qutrit)) : ℕ → EncoderParameters → EncoderParameters
  | 0, w => w
  | n + 1, w =>
    weightsAfterEpochs learning_rate beta dataloader n
      (runEpoch learning_rate beta w dataloader).weights

/-- The per-epoch history of the metric `f` over `n` epochs from `w`. -/
def epochHist (learning_rate beta : ℝ) (dataloader : List (List Qutrit))
    (f : EpochAcc → ℝ) : ℕ → EncoderParameters → List ℝ
  | 0, _ => []
  | n + 1, w =>
    f (runEpoch learning_rate beta w dataloader) ::
      epochHist learning_rate beta dataloader f n
        (runEpoch learning_rate beta w dataloader).weights

/-- Size-weighted average of two four-tuples of batch metrics. -/
def sizeWeightedAvg (n1 : ℕ) (x : ℝ × ℝ × ℝ × ℝ) (n2 : ℕ)
    (y : ℝ × ℝ × ℝ × ℝ) : ℝ × ℝ × ℝ × ℝ :=
  (((n1 : ℝ) * x.1 + (n2 : ℝ) * y.1) / ((n1 : ℝ) + (n2 : ℝ)),
    ((n1 : ℝ) * x.2.1 + (n2 : ℝ) * y.2.1) / ((n1 : ℝ) + (n2 : ℝ)),
    ((n1 : ℝ) * x.2.2.1 + (n2 : ℝ) * y.2.2.1) / ((n1 : ℝ) + (n2 : ℝ)),
    ((n1 : ℝ) * x.2.2.2 + (n2 : ℝ) * y.2.2.2) / ((n1 : ℝ) + (n2 : ℝ)))

/-- The all-zero qutrit state, used as a degenerate concrete input. -/
def zeroState : Qutrit := fun _ => 0

/-- The concrete qutrit state (0, 1, 0). -/
def stateE1 : Qutrit := ![0, 1, 0]

/-- The weights dictionary initialized with all eight draws equal to 0. -/
def wZero : EncoderParameters := initWeights fun _ => 0

/-! ## Selector of the total loss (claims C1, C2) -/

lemma totalLoss_at_one (w : EncoderParameters) (s : Qutrit) :
    totalLoss w s 1.0 = occupation_loss w s := by
  unfold totalLoss
  rw [if_pos]
  rw [abs_sub_lt_iff]
  norm_num

/-- Claim C1: for every parameter set, qutrit state, and real beta,
`compute_loss` returns a total loss equal to the occupation loss when
|beta - 1.0| < 1e-6, and equal to cloning_loss + beta * occupation_loss
otherwise. -/
theorem total_loss_selector (w : EncoderParameters) (s : Qutrit) (beta : ℝ) :
    (compute_loss w s beta).total_loss =
      if |beta - 1.0| < 1e-6 then occupation_loss w s
      else (compute_loss w s beta).cloning_loss + beta * occupation_loss w s :=
  rfl

/-- Claim C2 (amended): at beta = 1.0 exactly, the total loss equals the
occupation loss; and at beta = 1.0 + 1e-7 — which lies *within* the 1e-6
tolerance, |beta - 1| = 1e-7 < 1e-6 — the total loss again equals the
occupation loss. -/
theorem beta_within_tolerance (w : EncoderParameters) (s : Qutrit) :
    (compute_loss w s 1.0).total_loss = occupation_loss w s ∧
    (compute_loss w s (1.0 + 1e-7)).total_loss = occupation_loss w s := by
  refine ⟨totalLoss_at_one w s, ?_⟩
  show totalLoss w s (1.0 + 1e-7) = occupation_loss w s
  unfold totalLoss
  rw [if_pos]
  rw [abs_sub_lt_iff]
  norm_num

/-! Concrete evaluation of the pipeline at the all-zero weights (where the
encoder unitary is the identity) and the state (0, 1, 0), used to refute
the claimed behaviour at beta = 1.0 + 1e-7. -/

lemma getParam_wZero (k : String) : getParam wZero k = 0 := by
  have hz : ∀ l : List (String × ℝ), (∀ p ∈ l, p.2 = 0) →
      (List.lookup k l).getD 0 = 0 := by
    intro l
    induction l with
    | nil => intro _; rfl
    | cons a l ih =>
      intro h
      by_cases hk : (k == a.1) = true
      · simp [List.lookup, hk]
        exact h a (by simp)
      · simp [List.lookup, hk]
        exact ih fun p hp => h p (by simp [hp])
  apply hz
  intro p hp
  simp only [wZero, initWeights, List.mem_map] at hp
  obtain ⟨i, _, hi⟩ := hp
  rw [← hi]

lemma phaseDiag_zero : phaseDiag 0 0 0 = 1 := by
  ext i j
  fin_cases i <;> fin_cases j <;>
    simp [phaseDiag, Matrix.diagonal, Matrix.one_apply]

lemma givens12_zero : givens12 0 = 1 := by
  ext i j
  fin_cases i <;> fin_cases j <;>
    simp [givens12, Matrix.one_apply, Matrix.vecHead, Matrix.vecTail]

lemma givens13_zero : givens13 0 = 1 := by
  ext i j
  fin_cases i <;> fin_cases j <;>
    simp [givens13, Matrix.one_apply, Matrix.vecHead, Matrix.vecTail]

lemma givens23_zero : givens23 0 = 1 := by
  ext i j
  fin_cases i <;> fin_cases j <;>
    simp [givens23, Matrix.one_apply, Matrix.vecHead, Matrix.vecTail]

lemma encoder_unitary_wZero : encoder_unitary_of wZero = 1 := by
  simp [encoder_unitary_of, getParam_wZero, phaseDiag_zero, givens12_zero,
    givens13_zero, givens23_zero]

lemma encode_wZero : encode_qutrit stateE1 wZero = (stateE1, 1) := by
  simp [encode_qutrit, encoder_unitary_wZero, Matrix.one_mulVec]

lemma occupation_wZero : occupation_loss wZero stateE1 = 0 := by
  unfold occupation_loss
  rw [encode_wZero]
  simp [stateE1]

lemma effective_part_E1 : effective_part stateE1 = ![1, 0] := by
  funext i
  fin_cases i <;> rfl

lemma norm2_one_zero : norm2 ![(1 : ℂ), 0] = 1 := by
  simp [norm2]

lemma effectivePsi_wZero : effectivePsi wZero stateE1 = ![1, 0] := by
  rw [effectivePsi, encode_wZero]
  show project stateE1 = _
  rw [project, effective_part_E1, if_pos (by rw [norm2_one_zero]; norm_num)]
  funext i
  rw [norm2_one_zero]
  simp

lemma decodedRhoA_wZero :
    decodedRhoA wZero stateE1 = embed (bhReduced ![1, 0]) := by
  rw [decodedRhoA, rhoA, effectivePsi_wZero, encode_wZero]
  simp [decode_qubit_to_qutrit, buzek_hillery_clone, Matrix.conjTranspose_one]

lemma fidelity_E1 (M : Mat3) : fidelity stateE1 M = (M 1 1).re := by
  simp [fidelity, stateE1, Matrix.dotProduct, Matrix.mulVec, Fin.sum_univ_three]

lemma fidelityA_wZero : fidelityA wZero stateE1 = 5 / 6 := by
  rw [fidelityA, decodedRhoA_wZero, fidelity_E1]
  simp [embed, bhReduced, outer, Matrix.vecMulVec_apply, Matrix.one_apply]
  norm_num

lemma fidelityB_eq_fidelityA (w : EncoderParameters) (s : Qutrit) :
    fidelityB w s = fidelityA w s :=
  rfl

lemma cloningLoss_wZero : cloningLoss wZero stateE1 = -(2 / 3) := by
  rw [cloningLoss, fidelityB_eq_fidelityA, fidelityA_wZero]
  norm_num

/-- Counterexample to claim C2 as stated: at beta = 1.0 + 1e-7 the code is
*inside* the 1e-6 tolerance, so the total loss is the occupation loss (here
0) and not cloning_loss + beta * occupation_loss (here -2/3). -/
theorem beta_boundary_claim_false :
    ¬ ((compute_loss wZero stateE1 (1.0 + 1e-7)).total_loss =
        (compute_loss wZero stateE1 (1.0 + 1e-7)).cloning_loss +
          (1.0 + 1e-7) * occupation_loss wZero stateE1) := by
  have h1 : (compute_loss wZero stateE1 (1.0 + 1e-7)).total_loss = 0 := by
    show totalLoss wZero stateE1 (1.0 + 1e-7) = 0
    unfold totalLoss
    rw [if_pos (by rw [abs_sub_lt_iff]; norm_num), occupation_wZero]
  have h2 : (compute_loss wZero stateE1 (1.0 + 1e-7)).cloning_loss = -(2 / 3) :=
    cloningLoss_wZero
  rw [h1, h2, occupation_wZero]
  norm_num

/-! ## The subspace projector (claim C3) -/

/-- Claim C3: the effective state passed to the cloning channel is the
sub-vector of the encoded state at indices 1 and 2; when its Euclidean norm
is strictly positive it is divided by that norm, and when the norm is
exactly zero the zero vector is passed through unchanged. -/
theorem projector_normalizes (encoded : Qutrit) :
    effective_part encoded 0 = encoded 1 ∧
    effective_part encoded 1 = encoded 2 ∧
    (0 < norm2 (effective_part encoded) →
      project encoded =
        fun i => effective_part encoded i / (norm2 (effective_part encoded) : ℂ)) ∧
    (norm2 (effective_part encoded) = 0 →
      project encoded = effective_part encoded ∧
        ∀ i, effective_part encoded i = 0) := by
  refine ⟨rfl, rfl, fun h => ?_, fun h => ⟨?_, ?_⟩⟩
  · rw [project, if_pos h]
  · rw [project, if_neg (by rw [h]; exact lt_irrefl 0)]
  · have hsum : Complex.abs (effective_part encoded 0) ^ 2 +
        Complex.abs (effective_part encoded 1) ^ 2 = 0 := by
      have h0 : (0 : ℝ) ≤ Complex.abs (effective_part encoded 0) ^ 2 +
          Complex.abs (effective_part encoded 1) ^ 2 := by positivity
      rw [norm2, Real.sqrt_eq_zero h0] at h
      exact h
    have h0 : Complex.abs (effective_part encoded 0) ^ 2 = 0 ∧
        Complex.abs (effective_part encoded 1) ^ 2 = 0 := by
      constructor <;> nlinarith [sq_nonneg (Complex.abs (effective_part encoded 0)),
        sq_nonneg (Complex.abs (effective_part encoded 1))]
    intro i
    fin_cases i
    · simpa using h0.1
    · simpa using h0.2

/-! ## The loss components (claim C4) -/

/-- Claim C4: `compute_loss` computes the occupation loss as the squared
modulus of component 0 of the encoded state (observable in the total loss at
beta = 1.0), and the cloning loss as 1 - F_A - F_B + (F_A - F_B)^2 where
F_A and F_B are the fidelities of the two decoded clones against the input
state. -/
theorem loss_components (w : EncoderParameters) (s : Qutrit) (beta : ℝ) :
    (compute_loss w s 1.0).total_loss =
      Complex.abs ((encode_qutrit s w).1 0) ^ 2 ∧
    (compute_loss w s beta).F_A =
      fidelity s (decode_qubit_to_qutrit
        (embed (buzek_hillery_clone (project (encode_qutrit s w).1)).2.1)
        (encode_qutrit s w).2) ∧
    (compute_loss w s beta).F_B =
      fidelity s (decode_qubit_to_qutrit
        (embed (buzek_hillery_clone (project (encode_qutrit s w).1)).2.2)
        (encode_qutrit s w).2) ∧
    (compute_loss w s beta).cloning_loss =
      1 - (compute_loss w s beta).F_A - (compute_loss w s beta).F_B +
        ((compute_loss w s beta).F_A - (compute_loss w s beta).F_B) ^ 2 :=
  ⟨totalLoss_at_one w s, rfl, rfl, rfl⟩

/-! ## Batch averaging (claim C5) -/

lemma mean_append (xs ys : List ℝ) (hx : xs ≠ []) (hy : ys ≠ []) :
    mean (xs ++ ys) =
      ((xs.length : ℝ) * mean xs + (ys.length : ℝ) * mean ys) /
        ((xs.length : ℝ) + (ys.length : ℝ)) := by
  have hx0 : (xs.length : ℝ) ≠ 0 := by
    exact_mod_cast fun h => hx (List.length_eq_zero.mp (by exact_mod_cast h))
  have hy0 : (ys.length : ℝ) ≠ 0 := by
    exact_mod_cast fun h => hy (List.length_eq_zero.mp (by exact_mod_cast h))
  unfold mean
  rw [List.sum_append, List.length_append]
  push_cast
  rw [mul_div_cancel₀ _ hx0, mul_div_cancel₀ _ hy0]

lemma compute_loss_batch_eq (w : EncoderParameters) (batch : List Qutrit)
    (beta : ℝ) :
    compute_loss_batch w batch beta =
      (mean (batch.map fun s => (compute_loss w s beta).total_loss),
        mean (batch.map fun s => (compute_loss w s beta).cloning_loss),
        mean (batch.map fun s => (compute_loss w s beta).F_A),
        mean (batch.map fun s => (compute_loss w s beta).F_B)) := by
  simp only [compute_loss_batch, List.map_map]
  rfl

/-- Claim C5: `compute_loss_batch` applies the per-sample loss independently
to every state of the batch and returns the arithmetic mean of each of the
four per-sample outputs; on a batch of size 1 it equals `compute_loss` on
that sample, and on the concatenation of two nonempty batches it equals the
size-weighted average of the two sub-batch results. -/
theorem batch_mean_loss (w : EncoderParameters) (beta : ℝ) :
    (∀ batch : List Qutrit,
      compute_loss_batch w batch beta =
        (mean (batch.map fun s => (compute_loss w s beta).total_loss),
          mean (batch.map fun s => (compute_loss w s beta).cloning_loss),
          mean (batch.map fun s => (compute_loss w s beta).F_A),
          mean (batch.map fun s => (compute_loss w s beta).F_B))) ∧
    (∀ s : Qutrit,
      compute_loss_batch w [s] beta =
        ((compute_loss w s beta).total_loss,
          (compute_loss w s beta).cloning_loss,
          (compute_loss w s beta).F_A,
          (compute_loss w s beta).F_B)) ∧
    (∀ b1 b2 : List Qutrit, b1 ≠ [] → b2 ≠ [] →
      compute_loss_batch w (b1 ++ b2) beta =
        sizeWeightedAvg b1.length (compute_loss_batch w b1 beta) b2.length
          (compute_loss_batch w b2 beta)) := by
  refine ⟨fun batch => compute_loss_batch_eq w batch beta, fun s => ?_, ?_⟩
  · rw [compute_loss_batch_eq]
    simp [mean]
  · intro b1 b2 h1 h2
    have hmap : ∀ g : Qutrit → ℝ,
        mean ((b1 ++ b2).map g) =
          ((b1.length : ℝ) * mean (b1.map g) + (b2.length : ℝ) * mean (b2.map g)) /
            ((b1.length : ℝ) + (b2.length : ℝ)) := by
      intro g
      rw [List.map_append,
        mean_append _ _ (by simpa using h1) (by simpa using h2)]
      simp
    rw [compute_loss_batch_eq, compute_loss_batch_eq, compute_loss_batch_eq,
      sizeWeightedAvg]
    simp only [hmap]

/-! ## The optimizer step (claim C6) -/

lemma lookup_map_keyval (f : String → ℝ → ℝ) :
    ∀ (l : List (String × ℝ)) (k : String),
      List.lookup k (l.map fun p => (p.1, f p.1 p.2)) =
        (List.lookup k l).map fun v => f k v := by
  intro l
  induction l with
  | nil => intro k; rfl
  | cons a l ih =>
    intro k
    by_cases hk : (k == a.1) = true
    · have : k = a.1 := beq_iff_eq.mp hk
      simp [List.lookup, hk, this]
    · simp [List.lookup, hk, ih]

/-- Claim C6: one optimizer step returns, at every parameter key k,
`params[k] - lr * grad[k]`, where `gradAt` is the derivative of the
batch-mean total loss in the parameter at key k; consequently a single step
with learning rate 0 leaves every parameter unchanged. -/
theorem gradient_step_rule :
    (∀ (learning_rate : ℝ) (w : EncoderParameters) (batch : List Qutrit)
        (beta : ℝ) (k : String),
      List.lookup k (update_step learning_rate w batch beta) =
        (List.lookup k w).map
          fun v => v - learning_rate * gradAt w batch beta k) ∧
    (∀ (w : EncoderParameters) (batch : List Qutrit) (beta : ℝ),
      update_step 0 w batch beta = w) := by
  constructor
  · intro learning_rate w batch beta k
    exact lookup_map_keyval
      (fun key v => v - learning_rate * gradAt w batch beta key) w k
  · intro w batch beta
    unfold update_step
    simp

/-! ## The epoch loop (claims C7, C8, C10) -/

lemma processBatch_weights (learning_rate beta : ℝ) (acc : EpochAcc)
    (batch : List Qutrit) :
    (processBatch learning_rate beta acc batch).weights =
      update_step learning_rate acc.weights batch beta :=
  rfl

lemma processBatch_epoch_loss (learning_rate beta : ℝ) (acc : EpochAcc)
    (batch : List Qutrit) :
    (processBatch learning_rate beta acc batch).epoch_loss =
      acc.epoch_loss + (compute_loss_batch acc.weights batch beta).1 :=
  rfl

lemma processBatch_epoch_cloning_loss (learning_rate beta : ℝ) (acc : EpochAcc)
    (batch : List Qutrit) :
    (processBatch learning_rate beta acc batch).epoch_cloning_loss =
      acc.epoch_cloning_loss + (compute_loss_batch acc.weights batch beta).2.1 :=
  rfl

lemma processBatch_total_FA (learning_rate beta : ℝ) (acc : EpochAcc)
    (batch : List Qutrit) :
    (processBatch learning_rate beta acc batch).total_FA =
      acc.total_FA + (compute_loss_batch acc.weights batch beta).2.2.1 :=
  rfl

lemma processBatch_total_FB (learning_rate beta : ℝ) (acc : EpochAcc)
    (batch : List Qutrit) :
    (processBatch learning_rate beta acc batch).total_FB =
      acc.total_FB + (compute_loss_batch acc.weights batch beta).2.2.2 :=
  rfl

lemma processBatch_num_batches (learning_rate beta : ℝ) (acc : EpochAcc)
    (batch : List Qutrit) :
    (processBatch learning_rate beta acc batch).num_batches =
      acc.num_batches + 1 :=
  rfl

lemma foldl_processBatch (learning_rate beta : ℝ) :
    ∀ (batches : List (List Qutrit)) (acc : EpochAcc),
      (batches.foldl (processBatch learning_rate beta) acc).weights =
          batches.foldl (fun wi b => update_step learning_rate wi b beta)
            acc.weights ∧
        (batches.foldl (processBatch learning_rate beta) acc).num_batches =
          acc.num_batches + batches.length ∧
        (batches.foldl (processBatch learning_rate beta) acc).epoch_loss =
          acc.epoch_loss +
            (List.zipWith (fun wi b => (compute_loss_batch wi b beta).1)
              (batches.scanl (fun wi b => update_step learning_rate wi b beta)
                acc.weights) batches).sum ∧
        (batches.foldl (processBatch learning_rate beta) acc).epoch_cloning_loss =
          acc.epoch_cloning_loss +
            (List.zipWith (fun wi b => (compute_loss_batch wi b beta).2.1)
              (batches.scanl (fun wi b => update_step learning_rate wi b beta)
                acc.weights) batches).sum ∧
        (batches.foldl (processBatch learning_rate beta) acc).total_FA =
          acc.total_FA +
            (List.zipWith (fun wi b => (compute_loss_batch wi b beta).2.2.1)
              (batches.scanl (fun wi b => update_step learning_rate wi b beta)
                acc.weights) batches).sum ∧
        (batches.foldl (processBatch learning_rate beta) acc).total_FB =
          acc.total_FB +
            (List.zipWith (fun wi b => (compute_loss_batch wi b beta).2.2.2)
              (batches.scanl (fun wi b => update_step learning_rate wi b beta)
                acc.weights) batches).sum := by
  intro batches
  induction batches with
  | nil => intro acc; simp
  | cons b bs ih =>
    intro acc
    obtain ⟨ihw, ihn, ihl, ihc, ihfa, ihfb⟩ :=
      ih (processBatch learning_rate beta acc b)
    refine ⟨?_, ?_, ?_, ?_, ?_, ?_⟩
    · rw [List.foldl_cons, ihw, processBatch_weights, List.foldl_cons]
    · rw [List.foldl_cons, ihn, processBatch_num_batches, List.length_cons]
      omega
    · rw [List.foldl_cons, ihl, processBatch_epoch_loss, processBatch_weights]
      simp only [List.scanl_cons, List.singleton_append, List.zipWith_cons_cons, List.sum_cons]
      ring
    · rw [List.foldl_cons, ihc, processBatch_epoch_cloning_loss,
        processBatch_weights]
      simp only [List.scanl_cons, List.singleton_append, List.zipWith_cons_cons, List.sum_cons]
      ring
    · rw [List.foldl_cons, ihfa, processBatch_total_FA, processBatch_weights]
      simp only [List.scanl_cons, List.singleton_append, List.zipWith_cons_cons, List.sum_cons]
      ring
    · rw [List.foldl_cons, ihfb, processBatch_total_FB, processBatch_weights]
      simp only [List.scanl_cons, List.singleton_append, List.zipWith_cons_cons, List.sum_cons]
      ring

/-- Claim C7: within an epoch, each batch's contribution to the four
reported metrics is computed with the pre-update weights (the weights as
they stood before that batch's gradient step), and only afterwards is the
optimizer step applied: the accumulated metrics pair batch i with the i-th
entry of the scan of `update_step`, the weights as they stood *before* the
i-th update. -/
theorem metrics_use_pre_update_weights (learning_rate beta : ℝ)
    (w : EncoderParameters) (batches : List (List Qutrit)) :
    (∀ (acc : EpochAcc) (batch : List Qutrit),
      (processBatch learning_rate beta acc batch).epoch_loss =
          acc.epoch_loss + (compute_loss_batch acc.weights batch beta).1 ∧
        (processBatch learning_rate beta acc batch).epoch_cloning_loss =
          acc.epoch_cloning_loss +
            (compute_loss_batch acc.weights batch beta).2.1 ∧
        (processBatch learning_rate beta acc batch).total_FA =
          acc.total_FA + (compute_loss_batch acc.weights batch beta).2.2.1 ∧
        (processBatch learning_rate beta acc batch).total_FB =
          acc.total_FB + (compute_loss_batch acc.weights batch beta).2.2.2 ∧
        (processBatch learning_rate beta acc batch).weights =
          update_step learning_rate acc.weights batch beta) ∧
    (runEpoch learning_rate beta w batches).epoch_loss =
      (List.zipWith (fun wi b => (compute_loss_batch wi b beta).1)
        (batches.scanl (fun wi b => update_step learning_rate wi b beta) w)
        batches).sum ∧
    (runEpoch learning_rate beta w batches).epoch_cloning_loss =
      (List.zipWith (fun wi b => (compute_loss_batch wi b beta).2.1)
        (batches.scanl (fun wi b => update_step learning_rate wi b beta) w)
        batches).sum ∧
    (runEpoch learning_rate beta w batches).total_FA =
      (List.zipWith (fun wi b => (compute_loss_batch wi b beta).2.2.1)
        (batches.scanl (fun wi b => update_step learning_rate wi b beta) w)
        batches).sum ∧
    (runEpoch learning_rate beta w batches).total_FB =
      (List.zipWith (fun wi b => (compute_loss_batch wi b beta).2.2.2)
        (batches.scanl (fun wi b => update_step learning_rate wi b beta) w)
        batches).sum ∧
    (runEpoch learning_rate beta w batches).weights =
      batches.foldl (fun wi b => update_step learning_rate wi b beta) w := by
  obtain ⟨hw, hn, hl, hc, hfa, hfb⟩ :=
    foldl_processBatch learning_rate beta batches ⟨w, 0, 0, 0, 0, 0⟩
  exact ⟨fun acc batch => ⟨rfl, rfl, rfl, rfl, rfl⟩,
    by simpa [runEpoch] using hl, by simpa [runEpoch] using hc,
    by simpa [runEpoch] using hfa, by simpa [runEpoch] using hfb,
    by simpa [runEpoch] using hw⟩

lemma runEpoch_num_batches (learning_rate beta : ℝ) (w : EncoderParameters)
    (dataloader : List (List Qutrit)) :
    (runEpoch learning_rate beta w dataloader).num_batches =
      dataloader.length := by
  have h :=
    (foldl_processBatch learning_rate beta dataloader ⟨w, 0, 0, 0, 0, 0⟩).2.1
  simpa [runEpoch] using h

lemma epochHist_length (learning_rate beta : ℝ)
    (dataloader : List (List Qutrit)) (f : EpochAcc → ℝ) :
    ∀ (n : ℕ) (w : EncoderParameters),
      (epochHist learning_rate beta dataloader f n w).length = n := by
  intro n
  induction n with
  | zero => intro w; rfl
  | succ m ih =>
    intro w
    rw [epochHist, List.length_cons, ih]

lemma trainGo_eq (learning_rate beta : ℝ) (dataloader : List (List Qutrit))
    (hdl : dataloader ≠ []) :
    ∀ (n : ℕ) (w : EncoderParameters) (h1 h2 h3 h4 : List ℝ),
      trainGo learning_rate beta dataloader n w h1 h2 h3 h4 =
        some (weightsAfterEpochs learning_rate beta dataloader n w,
          h1 ++ epochHist learning_rate beta dataloader
            (fun a => a.epoch_loss / (a.num_batches : ℝ)) n w,
          h2 ++ epochHist learning_rate beta dataloader
            (fun a => a.epoch_cloning_loss / (a.num_batches : ℝ)) n w,
          h3 ++ epochHist learning_rate beta dataloader
            (fun a => a.total_FA / (a.num_batches : ℝ)) n w,
          h4 ++ epochHist learning_rate beta dataloader
            (fun a => a.total_FB / (a.num_batches : ℝ)) n w) := by
  intro n
  induction n with
  | zero =>
    intro w h1 h2 h3 h4
    simp [trainGo, weightsAfterEpochs, epochHist]
  | succ m ih =>
    intro w h1 h2 h3 h4
    have hnb : ¬ (runEpoch learning_rate beta w dataloader).num_batches = 0 := by
      rw [runEpoch_num_batches]
      exact fun h => hdl (List.length_eq_zero.mp h)
    rw [trainGo, if_neg hnb, ih]
    simp only [weightsAfterEpochs, epochHist]
    simp [List.append_assoc]

/-- Claim C8: `train` runs exactly `num_epochs` epochs with no early
stopping; each epoch appends exactly one entry to each of the four history
sequences — the accumulated batch-averaged metric of that epoch divided by
the number of batches — and after the last epoch it returns the final
parameters together with the four per-epoch histories, each of length
`num_epochs`. -/
theorem train_epochs_histories (r : Fin 8 → ℝ)
    (dataloader : List (List Qutrit)) (hdl : dataloader ≠ [])
    (num_epochs : ℕ) (learning_rate beta : ℝ) :
    train r dataloader num_epochs learning_rate beta =
      some (weightsAfterEpochs learning_rate beta dataloader num_epochs
          (initWeights r),
        epochHist learning_rate beta dataloader
          (fun a => a.epoch_loss / (a.num_batches : ℝ)) num_epochs
          (initWeights r),
        epochHist learning_rate beta dataloader
          (fun a => a.epoch_cloning_loss / (a.num_batches : ℝ)) num_epochs
          (initWeights r),
        epochHist learning_rate beta dataloader
          (fun a => a.total_FA / (a.num_batches : ℝ)) num_epochs
          (initWeights r),
        epochHist learning_rate beta dataloader
          (fun a => a.total_FB / (a.num_batches : ℝ)) num_epochs
          (initWeights r)) ∧
    (∀ f : EpochAcc → ℝ,
      (epochHist learning_rate beta dataloader f num_epochs
        (initWeights r)).length = num_epochs) := by
  constructor
  · have h := trainGo_eq learning_rate beta dataloader hdl num_epochs
      (initWeights r) [] [] [] []
    simpa [train] using h
  · exact fun f => epochHist_length learning_rate beta dataloader f num_epochs
      (initWeights r)

/-- Witness for claim C8 at a concrete one-batch dataloader and two
epochs. -/
theorem train_epochs_histories_witness :
    train (fun _ => 0) [[zeroState]] 2 1 1 =
      some (weightsAfterEpochs 1 1 [[zeroState]] 2 (initWeights fun _ => 0),
        epochHist 1 1 [[zeroState]]
          (fun a => a.epoch_loss / (a.num_batches : ℝ)) 2
          (initWeights fun _ => 0),
        epochHist 1 1 [[zeroState]]
          (fun a => a.epoch_cloning_loss / (a.num_batches : ℝ)) 2
          (initWeights fun _ => 0),
        epochHist 1 1 [[zeroState]]
          (fun a => a.total_FA / (a.num_batches : ℝ)) 2
          (initWeights fun _ => 0),
        epochHist 1 1 [[zeroState]]
          (fun a => a.total_FB / (a.num_batches : ℝ)) 2
          (initWeights fun _ => 0)) ∧
    (∀ f : EpochAcc → ℝ,
      (epochHist 1 1 [[zeroState]] f 2 (initWeights fun _ => 0)).length = 2) :=
  train_epochs_histories (fun _ => 0) [[zeroState]] (by simp) 2 1 1

/-- Claim C10: when the dataloader yields at least one batch per epoch, the
per-epoch averaging divisions are well-defined and `train` returns a
result; a dataloader yielding no batches makes `train` fail at the division
(modelled by `none`) rather than return a result. -/
theorem epoch_division_welldefined (learning_rate beta : ℝ) (r : Fin 8 → ℝ) :
    (∀ dataloader : List (List Qutrit), dataloader ≠ [] →
      ∀ num_epochs : ℕ,
        (train r dataloader num_epochs learning_rate beta).isSome) ∧
    (∀ num_epochs : ℕ, 0 < num_epochs →
      train r ([] : List (List Qutrit)) num_epochs learning_rate beta =
        none) := by
  constructor
  · intro dataloader hdl num_epochs
    rw [train, trainGo_eq learning_rate beta dataloader hdl]
    rfl
  · intro num_epochs hpos
    cases num_epochs with
    | zero => exact absurd hpos (lt_irrefl 0)
    | succ m =>
      rw [train, trainGo, if_pos]
      rw [runEpoch_num_batches]
      rfl

/-- Witness for claim C10: with a single nonempty batch the first epoch
divides by one and training succeeds; with an empty dataloader a single
epoch fails at the division. -/
theorem epoch_division_welldefined_witness :
    (train (fun _ => 0) [[zeroState]] 1 1 1).isSome ∧
    train (fun _ => 0) ([] : List (List Qutrit)) 1 1 1 = none :=
  ⟨(epoch_division_welldefined 1 1 fun _ => 0).1 [[zeroState]] (by simp) 1,
    (epoch_division_welldefined 1 1 fun _ => 0).2 1 (by norm_num)⟩

/-! ## The parameter key set (claim C9) -/

lemma update_step_keys (learning_rate : ℝ) (w : EncoderParameters)
    (batch : List Qutrit) (beta : ℝ) :
    (update_step learning_rate w batch beta).map Prod.fst = w.map Prod.fst := by
  unfold update_step
  rw [List.map_map]
  rfl

lemma runEpoch_weights_keys (learning_rate beta : ℝ)
    (dataloader : List (List Qutrit)) :
    ∀ acc : EpochAcc,
      ((dataloader.foldl (processBatch learning_rate beta) acc).weights).map
          Prod.fst = acc.weights.map Prod.fst := by
  induction dataloader with
  | nil => intro acc; rfl
  | cons b bs ih =>
    intro acc
    rw [List.foldl_cons, ih, processBatch_weights, update_step_keys]

lemma weightsAfterEpochs_keys (learning_rate beta : ℝ)
    (dataloader : List (List Qutrit)) :
    ∀ (n : ℕ) (w : EncoderParameters),
      (weightsAfterEpochs learning_rate beta dataloader n w).map Prod.fst =
        w.map Prod.fst := by
  intro n
  induction n with
  | zero => intro w; rfl
  | succ m ih =>
    intro w
    rw [weightsAfterEpochs, ih]
    exact runEpoch_weights_keys learning_rate beta dataloader _

/-- Claim C9: the parameter object created at the start of `train` is a
mapping with exactly the 8 distinct keys "1" through "8"; every optimizer
step preserves this key set, so at every point during training — after any
number of epochs — the weights mapping has precisely those 8 keys. -/
theorem params_keys_invariant (r : Fin 8 → ℝ) :
    (initWeights r).map Prod.fst = ["1", "2", "3", "4", "5", "6", "7", "8"] ∧
    (["1", "2", "3", "4", "5", "6", "7", "8"] : List String).Nodup ∧
    (∀ (learning_rate : ℝ) (w : EncoderParameters) (batch : List Qutrit)
        (beta : ℝ),
      (update_step learning_rate w batch beta).map Prod.fst =
        w.map Prod.fst) ∧
    (∀ (learning_rate beta : ℝ) (dataloader : List (List Qutrit)) (n : ℕ),
      (weightsAfterEpochs learning_rate beta dataloader n
          (initWeights r)).map Prod.fst =
        ["1", "2", "3", "4", "5", "6", "7", "8"]) := by
  have hkeys : (initWeights r).map Prod.fst =
      ["1", "2", "3", "4", "5", "6", "7", "8"] := by
    unfold initWeights
    rw [List.map_map]
    have hcomp : (Prod.fst ∘ fun i : Fin 8 => (toString (i.1 + 1), r i)) =
        fun i : Fin 8 => toString (i.1 + 1) := rfl
    rw [hcomp]
    decide
  refine ⟨hkeys, by decide, update_step_keys, ?_⟩
  intro learning_rate beta dataloader n
  rw [weightsAfterEpochs_keys, hkeys]

/-! ## Remaining witnesses -/

/-- Witness for claim C3: the normalizing branch is exercised at the state
(0, 1, 0) whose effective sub-vector has norm 1, and the zero-norm
passthrough at the all-zero state. -/
theorem projector_normalizes_witness :
    (project stateE1 =
      fun i => effective_part stateE1 i / (norm2 (effective_part stateE1) : ℂ)) ∧
    (project zeroState = effective_part zeroState ∧
      ∀ i, effective_part zeroState i = 0) :=
  ⟨(projector_normalizes stateE1).2.2.1
      (by rw [effective_part_E1, norm2_one_zero]; norm_num),
    (projector_normalizes zeroState).2.2.2
      (by simp [norm2, effective_part, zeroState])⟩

/-- Witness for claim C5: the size-weighted decomposition at the
concatenation of two concrete singleton batches. -/
theorem batch_mean_loss_witness :
    compute_loss_batch [] ([stateE1] ++ [zeroState]) 1 =
      sizeWeightedAvg 1 (compute_loss_batch [] [stateE1] 1) 1
        (compute_loss_batch [] [zeroState] 1) :=
  (batch_mean_loss [] 1).2.2 [stateE1] [zeroState] (by simp) (by simp)

end QAM
